import Mathlib

/-!
Shallow embedding of the `TimeBox` class from `tbox/timebox.py`
(Divoom TimeBox Bluetooth protocol layer).

Bytes are modelled as `Nat`, byte sequences as `List Nat`, and the mutable
`message_buf` field by explicit state passing: each operation takes the
buffer content and returns the result together with the new buffer content
where the Python method mutates it.  A Python method that can raise is
modelled with `Option` (`none` = the exception path).
-/

namespace TimeBox

/-- Embeds the `TimeBox.COMMANDS` class attribute: the dict mapping symbolic
command names to one-byte opcodes, as an association list. -/
def COMMANDS : List (String × Nat) :=
  [("switch radio", 0x05),
   ("set volume", 0x08),
   ("get volume", 0x09),
   ("set mute", 0x0a),
   ("get mute", 0x0b),
   ("set date time", 0x18),
   ("set image", 0x44),
   ("set view", 0x45),
   ("set animation frame", 0x49),
   ("get temperature", 0x59),
   ("get radio frequency", 0x60),
   ("set radio frequency", 0x61)]

/-- Embeds Python's `list.index(a)` for the cases used by the source:
index of the first occurrence of `a` (total: returns `l.length` when `a`
is absent; the source only calls it after an `in` check or guards with
a conditional, so the absent case is never reached there). -/
def listIndex (a : Nat) : List Nat → Nat
  | [] => 0
  | b :: l => if b = a then 0 else listIndex a l + 1

/-- Embeds `TimeBox.receive`: on the ready branch the received bytes `data`
are appended to `message_buf` and their count is returned (`self.message_buf
+= data; return len(data)`).  The not-ready branch, which appends nothing
and returns 0, is the instance `data = []`. -/
def receive (buf data : List Nat) : List Nat × Nat :=
  (buf ++ data, data.length)

/-- Embeds `TimeBox.send_command` restricted to building the payload it
passes to `send_payload`: resolves the symbolic name through `COMMANDS`
(`none` models the `KeyError` raised by the dict lookup on an unknown name,
before any payload is built), computes `length = len(args)+3`,
`length_lsb = length & 0xff`, `length_msb = length >> 8`, and builds
`[length_lsb, length_msb, command] + args`. -/
def send_command (command : String) (args : List Nat) : Option (List Nat) :=
  match COMMANDS.lookup command with
  | none => none
  | some opcode =>
    let length := args.length + 3
    let length_lsb := length &&& 0xff
    let length_msb := length >>> 8
    some ([length_lsb, length_msb, opcode] ++ args)

/-- Embeds `TimeBox.has_message`: `False` on an empty buffer, `True` when
the first byte differs from `0x01`, otherwise `0x02 in self.message_buf`. -/
def has_message (buf : List Nat) : Bool :=
  if buf.length = 0 then false
  else if buf.headI ≠ 0x01 then true
  else buf.contains 0x02

/-- Embeds `TimeBox.buffer_starts_with_garbage`: `False` on an empty buffer,
otherwise whether the first byte differs from `0x01`. -/
def buffer_starts_with_garbage (buf : List Nat) : Bool :=
  if buf.length = 0 then false
  else buf.headI ≠ 0x01

/-- Embeds `TimeBox.remove_garbage`: `pos` is the index of the first `0x01`
if one is present, else the buffer length; returns `buf[0:pos]` and leaves
`buf[pos:]` as the new buffer. -/
def remove_garbage (buf : List Nat) : List Nat × List Nat :=
  let pos := if buf.contains 0x01 then listIndex 0x01 buf else buf.length
  (buf.take pos, buf.drop pos)

/-- Embeds `TimeBox.remove_message`: raises (first component `none`, buffer
unchanged) when `0x02` is absent; otherwise `pos` is the index of the first
`0x02` plus one, the returned message is `buf[0:pos]` and the new buffer is
`buf[pos:]`. -/
def remove_message (buf : List Nat) : Option (List Nat) × List Nat :=
  if ¬ buf.contains 0x02 then (none, buf)
  else
    let pos := listIndex 0x02 buf + 1
    (some (buf.take pos), buf.drop pos)

/-- Embeds `TimeBox.drop_message_buffer`: `self.message_buf = []`. -/
def drop_message_buffer (_buf : List Nat) : List Nat := []

/-- Embeds `TimeBox.clear_input_buffer` (`while self.receive() > 0:
self.drop_message_buffer()`).  The transport is modelled as the list
`chunks` of byte batches successive `receive` calls deliver; an exhausted
transport behaves as a receive that yields zero bytes. -/
def clear_input_buffer : List Nat → List (List Nat) → List Nat
  | buf, [] => buf
  | buf, c :: cs =>
    if 0 < (receive buf c).2 then
      clear_input_buffer (drop_message_buffer (receive buf c).1) cs
    else (receive buf c).1

/-- Embeds `TimeBox.clear_input_buffer_quick` (`while self.receive(512) ==
512: self.drop_message_buffer()`), with the transport modelled as in
`clear_input_buffer`; each chunk is what `recv(512)` returns, hence at most
512 bytes long. -/
def clear_input_buffer_quick : List Nat → List (List Nat) → List Nat
  | buf, [] => buf
  | buf, c :: cs =>
    if (receive buf c).2 = 512 then
      clear_input_buffer_quick (drop_message_buffer (receive buf c).1) cs
    else (receive buf c).1

/-- The decimal digits of a natural number, most significant first: the
character sequence produced by Python's `str` on a non-negative int. -/
def natDigits (n : Nat) : List Nat :=
  if n < 10 then [n]
  else natDigits (n / 10) ++ [n % 10]
termination_by n
decreasing_by
  exact Nat.div_lt_self (by omega) (by omega)

/-- The value of a decimal digit string, most significant first: Python's
`int` applied to a digit string (`int("")` on the empty list raises, which
the caller `set_time` models with `none`). -/
def fromDigits (ds : List Nat) : Nat :=
  ds.foldl (fun acc d => acc * 10 + d) 0

/-- Embeds `TimeBox.set_time` applied to an explicit timestamp, restricted
to the payload it hands to `send_payload`: appends
`int(str(year)[2:])`, `int(str(year)[0:2])`, month, day, hour, minute,
second and `0` to `args`, then calls `send_command("set date time", args)`.
`none` models the `ValueError` raised by `int("")` when `str(year)` has
fewer than three characters. -/
def set_time (year month day hour minute second : Nat) : Option (List Nat) :=
  let ds := natDigits year
  if ds.drop 2 = [] then none
  else
    send_command "set date time"
      [fromDigits (ds.drop 2), fromDigits (ds.take 2),
       month, day, hour, minute, second, 0]

/-! ### Helper lemmas -/

theorem natDigits_lt10 (n : Nat) (h : n < 10) : natDigits n = [n] := by
  unfold natDigits
  simp [h]

theorem natDigits_ge10 (n : Nat) (h : 10 ≤ n) :
    natDigits n = natDigits (n / 10) ++ [n % 10] := by
  conv_lhs => rw [natDigits]
  simp [Nat.not_lt.mpr h]

theorem natDigits_three (y : Nat) (h1 : 100 ≤ y) (h2 : y ≤ 999) :
    natDigits y = [y / 100, y / 10 % 10, y % 10] := by
  rw [natDigits_ge10 y (by omega), natDigits_ge10 (y / 10) (by omega),
    natDigits_lt10 (y / 10 / 10) (by omega)]
  have e : y / 10 / 10 = y / 100 := by omega
  rw [e]
  rfl

theorem natDigits_four (y : Nat) (h1 : 1000 ≤ y) (h2 : y ≤ 9999) :
    natDigits y = [y / 1000, y / 100 % 10, y / 10 % 10, y % 10] := by
  rw [natDigits_ge10 y (by omega), natDigits_ge10 (y / 10) (by omega),
    natDigits_ge10 (y / 10 / 10) (by omega),
    natDigits_lt10 (y / 10 / 10 / 10) (by omega)]
  have e1 : y / 10 / 10 / 10 = y / 1000 := by omega
  have e2 : y / 10 / 10 % 10 = y / 100 % 10 := by omega
  rw [e1, e2]
  rfl

theorem send_command_eq (name : String) (opcode : Nat) (args : List Nat)
    (h : COMMANDS.lookup name = some opcode) :
    send_command name args =
      some ([(args.length + 3) % 256, (args.length + 3) / 256, opcode] ++ args) := by
  unfold send_command
  rw [h]
  have e1 : (args.length + 3) &&& 0xff = (args.length + 3) % 256 := by
    have e := Nat.and_pow_two_sub_one_eq_mod (args.length + 3) 8
    norm_num at e
    exact e
  have e2 : (args.length + 3) >>> 8 = (args.length + 3) / 256 := by
    have e := Nat.shiftRight_eq_div_pow (args.length + 3) 8
    norm_num at e
    exact e
  simp only [e1, e2]

theorem take_listIndex (a : Nat) (l : List Nat) :
    l.take (listIndex a l) = l.takeWhile (fun b => decide (b ≠ a)) := by
  induction l with
  | nil => rfl
  | cons b t ih =>
    by_cases hb : b = a
    · subst hb
      simp [listIndex]
    · simp [listIndex, hb, ih]

theorem drop_listIndex (a : Nat) (l : List Nat) :
    l.drop (listIndex a l) = l.dropWhile (fun b => decide (b ≠ a)) := by
  induction l with
  | nil => rfl
  | cons b t ih =>
    by_cases hb : b = a
    · subst hb
      simp [listIndex]
    · simp [listIndex, hb, ih]

theorem takeWhile_ne_of_not_contains (a : Nat) (l : List Nat)
    (h : l.contains a = false) : l.takeWhile (fun b => decide (b ≠ a)) = l := by
  induction l with
  | nil => rfl
  | cons b t ih =>
    simp only [List.contains_cons, Bool.or_eq_false_iff, beq_eq_false_iff_ne] at h
    rw [List.takeWhile_cons_of_pos (by simpa using Ne.symm h.1), ih h.2]

theorem dropWhile_ne_of_not_contains (a : Nat) (l : List Nat)
    (h : l.contains a = false) : l.dropWhile (fun b => decide (b ≠ a)) = [] := by
  induction l with
  | nil => rfl
  | cons b t ih =>
    simp only [List.contains_cons, Bool.or_eq_false_iff, beq_eq_false_iff_ne] at h
    rw [List.dropWhile_cons_of_pos (by simpa using Ne.symm h.1), ih h.2]

theorem remove_garbage_eq (buf : List Nat) :
    remove_garbage buf =
      (buf.takeWhile (fun b => decide (b ≠ 0x01)),
       buf.dropWhile (fun b => decide (b ≠ 0x01))) := by
  unfold remove_garbage
  by_cases hc : buf.contains 0x01 = true
  · simp only [hc, if_true]
    rw [take_listIndex, drop_listIndex]
  · have hc2 : buf.contains 0x01 = false := by simpa using hc
    simp only [hc2, Bool.false_eq_true, if_false]
    rw [List.take_length, List.drop_length,
      takeWhile_ne_of_not_contains 0x01 buf hc2,
      dropWhile_ne_of_not_contains 0x01 buf hc2]

theorem take_listIndex_succ (a : Nat) (l : List Nat) (h : l.contains a = true) :
    l.take (listIndex a l + 1) = l.takeWhile (fun b => decide (b ≠ a)) ++ [a] := by
  induction l with
  | nil => simp at h
  | cons b t ih =>
    by_cases hb : b = a
    · subst hb
      simp [listIndex]
    · simp only [List.contains_cons, Bool.or_eq_true, beq_iff_eq] at h
      have ht : t.contains a = true := by
        rcases h with h | h
        · exact absurd h.symm hb
        · exact h
      simp [listIndex, hb, ih ht]

theorem drop_listIndex_succ (a : Nat) (l : List Nat) (h : l.contains a = true) :
    l.drop (listIndex a l + 1) = (l.dropWhile (fun b => decide (b ≠ a))).tail := by
  induction l with
  | nil => simp at h
  | cons b t ih =>
    by_cases hb : b = a
    · subst hb
      simp [listIndex]
    · simp only [List.contains_cons, Bool.or_eq_true, beq_iff_eq] at h
      have ht : t.contains a = true := by
        rcases h with h | h
        · exact absurd h.symm hb
        · exact h
      simp [listIndex, hb, ih ht]

theorem contains_takeWhile_ne (a : Nat) (l : List Nat) :
    (l.takeWhile (fun b => decide (b ≠ a))).contains a = false := by
  induction l with
  | nil => rfl
  | cons b t ih =>
    by_cases hb : b = a
    · subst hb
      simp
    · rw [List.takeWhile_cons_of_pos (by simpa using hb)]
      simp only [List.contains_cons, ih, Bool.or_false]
      simpa using fun e => hb e.symm

theorem dropWhile_ne_nil_or_headI (a : Nat) (l : List Nat) :
    l.dropWhile (fun b => decide (b ≠ a)) = [] ∨
      (l.dropWhile (fun b => decide (b ≠ a))).headI = a := by
  induction l with
  | nil => exact Or.inl rfl
  | cons b t ih =>
    by_cases hb : b = a
    · subst hb
      right
      simp [List.dropWhile_cons, List.headI]
    · simpa [List.dropWhile_cons, hb] using ih

theorem remove_message_pos (buf : List Nat) (hc : buf.contains 0x02 = true) :
    remove_message buf =
      (some (buf.take (listIndex 0x02 buf + 1)),
       buf.drop (listIndex 0x02 buf + 1)) := by
  unfold remove_message
  simp only [hc, not_true_eq_false, if_false]

theorem remove_message_neg (buf : List Nat) (hc : buf.contains 0x02 = false) :
    remove_message buf = (none, buf) := by
  unfold remove_message
  simp only [hc, Bool.false_eq_true, not_false_eq_true, if_true]

theorem clear_input_buffer_nil_buf (cs : List (List Nat)) :
    clear_input_buffer [] cs = [] := by
  induction cs with
  | nil => rfl
  | cons c cs ih =>
    unfold clear_input_buffer
    by_cases hc : 0 < (receive [] c).2
    · simp only [hc, if_true, drop_message_buffer, ih]
    · simp only [receive, Nat.pos_iff_ne_zero, ne_eq, not_not,
        List.length_eq_zero] at hc
      simp [receive, hc]

/-! ### Claim theorems -/

/-- C1: for every symbolic command name present in the opcode table and
every argument list `args` with `args.length + 3 ≤ 0xffff`, `send_command`
builds `[length mod 256, length div 256, opcode] ++ args` with
`length = args.length + 3`; in particular
`send_command "set volume" [0x0a]` builds `[0x04, 0x00, 0x08, 0x0a]`. -/
theorem send_command_builds_payload (name : String) (opcode : Nat)
    (args : List Nat) (hname : COMMANDS.lookup name = some opcode)
    (_hlen : args.length + 3 ≤ 0xffff) :
    send_command name args =
      some ([(args.length + 3) % 256, (args.length + 3) / 256, opcode]
        ++ args) ∧
    send_command "set volume" [0x0a] = some [0x04, 0x00, 0x08, 0x0a] :=
  ⟨send_command_eq name opcode args hname, by decide⟩

/-- Witness for C1 at `name = "set volume"`, `args = [0x0a]`. -/
theorem send_command_builds_payload_witness :
    send_command "set volume" [0x0a] =
      some ([([(0x0a : Nat)].length + 3) % 256,
        ([(0x0a : Nat)].length + 3) / 256, 0x08] ++ [0x0a]) :=
  (send_command_builds_payload "set volume" 0x08 [0x0a]
    (by decide) (by decide)).1

/-- C2: `has_message` is true iff the buffer is non-empty with first byte
other than `0x01` (leading garbage), or non-empty with first byte `0x01`
and an end marker `0x02` somewhere in it (frame ready); in particular the
incomplete frame `[0x01, 0x10]` yields `false`. -/
theorem has_message_spec (buf : List Nat) :
    (has_message buf = true ↔
      ((buf ≠ [] ∧ buf.headI ≠ 0x01) ∨
       (buf ≠ [] ∧ buf.headI = 0x01 ∧ buf.contains 0x02 = true))) ∧
    has_message [0x01, 0x10] = false := by
  constructor
  · cases buf with
    | nil => simp [has_message]
    | cons b rest =>
      by_cases hb : b = 0x01
      · subst hb
        simp [has_message, List.headI]
      · simp [has_message, List.headI, hb]
  · decide

/-- C8: `buffer_starts_with_garbage` is true iff the buffer is non-empty
and its first byte is not the start marker `0x01`; in particular it is
false on an empty buffer. -/
theorem buffer_starts_with_garbage_spec (buf : List Nat) :
    (buffer_starts_with_garbage buf = true ↔
      (buf ≠ [] ∧ buf.headI ≠ 0x01)) ∧
    buffer_starts_with_garbage [] = false := by
  constructor
  · cases buf with
    | nil => simp [buffer_starts_with_garbage]
    | cons b rest => simp [buffer_starts_with_garbage, List.headI]
  · decide

/-- C3: `remove_garbage` removes and returns the longest strict prefix
containing no start marker `0x01` (the whole buffer when no `0x01` occurs),
leaving the rest as the new buffer; on an empty buffer it returns `[]` and
leaves `[]`; in particular on `[0x05, 0x06, 0x01, 0x10, 0x02]` it returns
`[0x05, 0x06]` and leaves `[0x01, 0x10, 0x02]`. -/
theorem remove_garbage_spec (buf : List Nat) :
    remove_garbage buf =
      (buf.takeWhile (fun b => decide (b ≠ 0x01)),
       buf.dropWhile (fun b => decide (b ≠ 0x01))) ∧
    remove_garbage [] = ([], []) ∧
    remove_garbage [0x05, 0x06, 0x01, 0x10, 0x02] =
      ([0x05, 0x06], [0x01, 0x10, 0x02]) :=
  ⟨remove_garbage_eq buf, by decide, by decide⟩

/-- C4: `remove_message` fails exactly when no end marker `0x02` occurs in
the buffer, leaving the buffer unchanged on failure; when `0x02` occurs it
removes and returns the prefix up to and including the first `0x02`
(regardless of the first byte), leaving the remaining suffix. -/
theorem remove_message_spec (buf : List Nat) :
    ((remove_message buf).1 = none ↔ buf.contains 0x02 = false) ∧
    ((remove_message buf).1 = none → (remove_message buf).2 = buf) ∧
    (buf.contains 0x02 = true →
      remove_message buf =
        (some (buf.takeWhile (fun b => decide (b ≠ 0x02)) ++ [0x02]),
         (buf.dropWhile (fun b => decide (b ≠ 0x02))).tail)) := by
  by_cases hc : buf.contains 0x02 = true
  · have hsome : remove_message buf =
        (some (buf.takeWhile (fun b => decide (b ≠ 0x02)) ++ [0x02]),
         (buf.dropWhile (fun b => decide (b ≠ 0x02))).tail) := by
      rw [remove_message_pos buf hc,
        take_listIndex_succ 0x02 buf hc, drop_listIndex_succ 0x02 buf hc]
    refine ⟨?_, ?_, fun _ => hsome⟩
    · rw [hsome]
      have hm : (0x02 : Nat) ∈ buf := by simpa using hc
      simp [hm]
    · rw [hsome]
      simp
  · have hc2 : buf.contains 0x02 = false := by simpa using hc
    have hnone : remove_message buf = (none, buf) := remove_message_neg buf hc2
    refine ⟨?_, fun _ => by rw [hnone], fun h => absurd h hc⟩
    rw [hnone]
    have hm : (0x02 : Nat) ∉ buf := by simpa using hc2
    simp [hm]

/-- Witness for C4's conditional parts at `buf = [0x05, 0x02, 0x07]`. -/
theorem remove_message_spec_witness :
    (remove_message [0x05, 0x02, 0x07]).2 = [0x07] ∧
    remove_message [0x05, 0x02, 0x07] = (some [0x05, 0x02], [0x07]) := by
  have h := remove_message_spec [0x05, 0x02, 0x07]
  have h2 := h.2.2 (by decide)
  rw [h2]
  exact ⟨by decide, by decide⟩

/-- C7: for every symbolic command name absent from the opcode table,
`send_command` fails (models the `KeyError` from the dict lookup) before
any payload is built. -/
theorem send_command_unknown_fails (name : String) (args : List Nat)
    (h : COMMANDS.lookup name = none) :
    send_command name args = none := by
  unfold send_command
  rw [h]

/-- Witness for C7 at the absent name `"explode"`. -/
theorem send_command_unknown_fails_witness :
    send_command "explode" [1, 2] = none :=
  send_command_unknown_fails "explode" [1, 2] (by decide)

/-- C9: every buffer mutation preserves byte content and order: `receive`
appends the received bytes to the tail, and `remove_garbage` (always) and
`remove_message` (on success) split the old buffer into the returned bytes
followed by the new buffer. -/
theorem buffer_mutations_preserve_content (buf data : List Nat) :
    (receive buf data).1 = buf ++ data ∧
    (remove_garbage buf).1 ++ (remove_garbage buf).2 = buf ∧
    (∀ res, (remove_message buf).1 = some res →
      res ++ (remove_message buf).2 = buf) := by
  refine ⟨rfl, ?_, ?_⟩
  · unfold remove_garbage
    exact List.take_append_drop _ buf
  · intro res h
    by_cases hc : buf.contains 0x02 = true
    · rw [remove_message_pos buf hc] at h ⊢
      cases h
      exact List.take_append_drop _ buf
    · have hc2 : buf.contains 0x02 = false := by simpa using hc
      rw [remove_message_neg buf hc2] at h
      simp at h

/-- Witness for C9's conditional part at `buf = [0x01, 0x02]`. -/
theorem buffer_mutations_preserve_content_witness :
    [0x01, 0x02] ++ (remove_message [0x01, 0x02]).2 = [0x01, 0x02] :=
  (buffer_mutations_preserve_content [0x01, 0x02] []).2.2
    [0x01, 0x02] (by decide)

/-- C10: `remove_garbage` is idempotent: the removed bytes contain no start
marker `0x01`, the resulting buffer is empty or begins with `0x01`, and an
immediate second call removes nothing and leaves the buffer unchanged. -/
theorem remove_garbage_idempotent (buf : List Nat) :
    (remove_garbage buf).1.contains 0x01 = false ∧
    ((remove_garbage buf).2 = [] ∨ (remove_garbage buf).2.headI = 0x01) ∧
    remove_garbage (remove_garbage buf).2 = ([], (remove_garbage buf).2) := by
  have h1 : (remove_garbage buf).1 =
      buf.takeWhile (fun b => decide (b ≠ 0x01)) := by
    rw [remove_garbage_eq buf]
  have h2 : (remove_garbage buf).2 =
      buf.dropWhile (fun b => decide (b ≠ 0x01)) := by
    rw [remove_garbage_eq buf]
  refine ⟨?_, ?_, ?_⟩
  · rw [h1]
    exact contains_takeWhile_ne 0x01 buf
  · rw [h2]
    exact dropWhile_ne_nil_or_headI 0x01 buf
  · rw [h2]
    rcases hd : buf.dropWhile (fun b => decide (b ≠ 0x01)) with _ | ⟨b, t⟩
    · rfl
    · have hb : b = 0x01 := by
        rcases dropWhile_ne_nil_or_headI 0x01 buf with h | h
        · rw [hd] at h
          cases h
        · rw [hd] at h
          exact h
      subst hb
      unfold remove_garbage
      simp [listIndex, List.contains_cons]

/-- C5 (counterexample): it is not true that after either drain loop
returns the receive buffer is empty: starting from an empty buffer,
`clear_input_buffer_quick` whose single receive yields the one-byte batch
`[0x05]` (fewer than the requested 512 bytes) exits with `[0x05]` still in
the buffer. -/
theorem clear_input_buffer_quick_not_empty :
    clear_input_buffer_quick [] [[0x05]] = [0x05] ∧
    ([0x05] : List Nat) ≠ [] := by
  exact ⟨rfl, by decide⟩

/-- C5 (amended): both drain loops append each received batch and
immediately drop the whole buffer, repeating until a receive yields zero
bytes (`clear_input_buffer`) or fewer than the requested 512 bytes
(`clear_input_buffer_quick`); after `clear_input_buffer` returns the
buffer is empty provided it was empty at entry or the first receive
yielded bytes, while `clear_input_buffer_quick` exits holding exactly the
bytes of the final short receive, so it need not leave the buffer
empty. -/
theorem clear_input_buffer_spec (buf : List Nat) (chunks : List (List Nat))
    (h : buf = [] ∨ ∃ c cs, chunks = c :: cs ∧ c ≠ []) :
    clear_input_buffer buf chunks = [] ∧
    (∀ c cs, c.length = 512 →
      clear_input_buffer_quick buf (c :: cs) =
        clear_input_buffer_quick [] cs) ∧
    (∀ c cs, c.length ≠ 512 →
      clear_input_buffer_quick buf (c :: cs) = buf ++ c) := by
  refine ⟨?_, ?_, ?_⟩
  · rcases h with h | ⟨c, cs, rfl, hc⟩
    · subst h
      exact clear_input_buffer_nil_buf chunks
    · unfold clear_input_buffer
      have hlen : 0 < (receive buf c).2 := by
        simp [receive, List.length_pos]
        exact hc
      simp only [hlen, if_true, drop_message_buffer]
      exact clear_input_buffer_nil_buf cs
  · intro c cs hlen
    conv_lhs => unfold clear_input_buffer_quick
    simp only [receive, hlen, if_true, drop_message_buffer]
  · intro c cs hlen
    conv_lhs => unfold clear_input_buffer_quick
    simp only [receive, hlen, if_false]

/-- Witness for C5's amended statement: a full drain over batches
`[0x05]` then nothing empties a buffer holding `[0x07]`, and a quick drain
whose first receive yields the short batch `[0x09]` exits with that batch
appended. -/
theorem clear_input_buffer_spec_witness :
    clear_input_buffer [0x07] [[0x05], []] = [] ∧
    clear_input_buffer_quick [0x07] [[0x09]] = [0x07] ++ [0x09] := by
  have h := clear_input_buffer_spec [0x07] [[0x05], []]
    (Or.inr ⟨[0x05], [[]], rfl, by decide⟩)
  exact ⟨h.1, h.2.2 [0x09] [] (by decide)⟩

/-- C6 (counterexample): `set_time` does not split every year into its
last-two/first-two decimal digits: at the three-digit year 999 the code
slices `str(999)` into `"9"` and `"99"`, so the payload carries year bytes
`9, 99` where the claim's split of 999 would put `999 mod 100 = 99`
first. -/
theorem set_time_year999_counterexample :
    set_time 999 1 2 3 4 5 =
      some [0x0b, 0x00, 0x18, 9, 99, 1, 2, 3, 4, 5, 0] ∧
    (9 : Nat) ≠ 999 % 100 := by
  constructor
  · unfold set_time
    rw [natDigits_three 999 (by omega) (by omega)]
    norm_num
    rw [send_command_eq "set date time" 0x18 _ (by decide)]
    rfl
  · decide

/-- C6 (amended): for every calendar timestamp whose year has four decimal
digits (1000–9999), `set_time` builds the argument list
`[year mod 100, year div 100, month, day, hour, minute, second, 0]` and
sends it as a `"set date time"` command (opcode `0x18`) through
`send_command`. -/
theorem set_time_builds_datetime_payload
    (year month day hour minute second : Nat)
    (h1 : 1000 ≤ year) (h2 : year ≤ 9999) :
    set_time year month day hour minute second =
      send_command "set date time"
        [year % 100, year / 100, month, day, hour, minute, second, 0] ∧
    set_time year month day hour minute second =
      some [0x0b, 0x00, 0x18, year % 100, year / 100,
        month, day, hour, minute, second, 0] := by
  have hsc := send_command_eq "set date time" 0x18
    [year % 100, year / 100, month, day, hour, minute, second, 0] (by decide)
  have hst : set_time year month day hour minute second =
      some [0x0b, 0x00, 0x18, year % 100, year / 100,
        month, day, hour, minute, second, 0] := by
    unfold set_time
    rw [natDigits_four year h1 h2]
    have hlow : fromDigits [year / 10 % 10, year % 10] = year % 100 := by
      simp only [fromDigits, List.foldl_cons, List.foldl_nil]
      omega
    have hhigh : fromDigits [year / 1000, year / 100 % 10] = year / 100 := by
      simp only [fromDigits, List.foldl_cons, List.foldl_nil]
      omega
    have hcond : ¬ (([year / 1000, year / 100 % 10, year / 10 % 10,
        year % 10] : List Nat).drop 2 = []) := by simp
    rw [if_neg hcond]
    show send_command "set date time"
      [fromDigits [year / 10 % 10, year % 10],
       fromDigits [year / 1000, year / 100 % 10],
       month, day, hour, minute, second, 0] = _
    rw [hlow, hhigh, send_command_eq "set date time" 0x18 _ (by decide)]
    simp
  refine ⟨?_, hst⟩
  rw [hst, hsc]
  simp

/-- Witness for C6's amended statement at the timestamp
1987-06-05 04:03:02. -/
theorem set_time_builds_datetime_payload_witness :
    set_time 1987 6 5 4 3 2 =
      some [0x0b, 0x00, 0x18, 1987 % 100, 1987 / 100, 6, 5, 4, 3, 2, 0] :=
  (set_time_builds_datetime_payload 1987 6 5 4 3 2
    (by decide) (by decide)).2

end TimeBox
